import Mathlib

set_option maxHeartbeats 1000000

/-!
Shallow embedding of flopy/modflow/mf.py (classes ModflowGlobal, ModflowList
and Modflow).  The data held on a Modflow instance becomes a plain structure,
the methods write_name_file, next_ext_unit and the grid-shape accessors become
pure functions, and the static method Modflow.load becomes a pure function
from the parsed name-file table (the ext_unit_dict) to an Except value, with
the individual package loaders abstracted as a boolean success oracle (their
code lives outside this module).  Python ints are Nat, Python exceptions are
Except errors, Python lists are Lean lists appended on the right.
-/

/-- ASCII lowercase mapping of one character (Python str.lower on the ASCII
tags this module handles). -/
def lowerChar (c : Char) : Char :=
  if 'A' ≤ c ∧ c ≤ 'Z' then Char.ofNat (c.toNat + 32) else c

/-- ASCII uppercase mapping of one character (Python str.upper). -/
def upperChar (c : Char) : Char :=
  if 'a' ≤ c ∧ c ≤ 'z' then Char.ofNat (c.toNat - 32) else c

/-- Python str.lower on a string. -/
def strLower (s : String) : String := String.mk (s.toList.map lowerChar)

/-- Python str.upper on a string. -/
def strUpper (s : String) : String := String.mk (s.toList.map upperChar)

/-- Substring test on character lists: pat occurs contiguously inside s. -/
def charsContain (s pat : List Char) : Bool :=
  (List.range (s.length + 1)).any (fun i => (s.drop i).take pat.length == pat)

/-- The Python membership test (pat in s) on strings. -/
def strContains (s pat : String) : Bool :=
  charsContain s.toList pat.toList

/-- The package constructors named in the mfnam_packages dictionary literal in
Modflow.__init__ (mf.py lines 148-178); the ext constructor stands for any
registry extension a caller installs on one model after construction. -/
inductive MfPkgCtor where
  | ModflowZon | ModflowMlt | ModflowPval | ModflowBas | ModflowDis
  | ModflowBcf | ModflowLpf | ModflowHfb | ModflowChd | ModflowWel
  | ModflowDrn | ModflowRch | ModflowEvt | ModflowGhb | ModflowGmg
  | ModflowRiv | ModflowStr | ModflowSwi2 | ModflowPcg | ModflowPcgn
  | ModflowNwt | ModflowPks | ModflowSfr2 | ModflowSip | ModflowSor
  | ModflowDe4 | ModflowOc | ModflowUzf1 | ModflowUpw
  | ext (tag : String)
deriving DecidableEq, Repr

/-- The filetype-to-constructor dictionary literal assigned to
self.mfnam_packages in Modflow.__init__ (mf.py lines 148-178), in source
order, as an association list. -/
def Modflow.default_mfnam_packages : List (String × MfPkgCtor) :=
  [("zone", .ModflowZon), ("mult", .ModflowMlt), ("pval", .ModflowPval),
   ("bas6", .ModflowBas), ("dis", .ModflowDis), ("bcf6", .ModflowBcf),
   ("lpf", .ModflowLpf), ("hfb6", .ModflowHfb), ("chd", .ModflowChd),
   ("wel", .ModflowWel), ("drn", .ModflowDrn), ("rch", .ModflowRch),
   ("evt", .ModflowEvt), ("ghb", .ModflowGhb), ("gmg", .ModflowGmg),
   ("riv", .ModflowRiv), ("str", .ModflowStr), ("swi2", .ModflowSwi2),
   ("pcg", .ModflowPcg), ("pcgn", .ModflowPcgn), ("nwt", .ModflowNwt),
   ("pks", .ModflowPks), ("sfr", .ModflowSfr2), ("sip", .ModflowSip),
   ("sor", .ModflowSor), ("de4", .ModflowDe4), ("oc", .ModflowOc),
   ("uzf", .ModflowUzf1), ("upw", .ModflowUpw)]

/-- Grid shape data of a loaded discretization package (ModflowDis exposes
nlay, nrow, ncol, nper; its loader is outside this module). -/
structure DisPkg where
  nlay : Nat
  nrow : Nat
  ncol : Nat
  nper : Nat
deriving DecidableEq, Repr

/-- The (name[0], unit_number[0], file_name[0]) triple of a Package object as
read by Modflow.write_name_file; Package.__init__ itself is outside this
module (flopy.mbase), so only the triple is kept. -/
structure PkgRef where
  name : String
  unit : Nat
  fname : String
deriving DecidableEq, Repr

/-- The state a Modflow instance carries (Modflow.__init__, mf.py 101-179).
nameFileEntries is modelled from the spec: BaseModel.get_name_file_entries
(outside this module) yields one manifest line per owned package file entry,
kept here as that list of lines. -/
structure Modflow.Model where
  name : String := "modflowtest"
  version : String := "mf2005"
  structured : Bool := true
  heading : String := ""
  model_ws : String := "."
  glo : PkgRef := { name := "GLOBAL", unit := 1, fname := "modflowtest.glo" }
  lst : PkgRef := { name := "LIST", unit := 2, fname := "modflowtest.list" }
  nameFileEntries : List String := []
  external_fnames : List String := []
  external_units : List Nat := []
  external_binflag : List Bool := []
  nextExtUnit : Nat := 1000
  mfnam_packages : List (String × MfPkgCtor) := []
  dis : Option DisPkg := none
  pop_key_list : List Nat := []
deriving DecidableEq, Repr

/-- Modflow.__init__ (mf.py 101-179).  The version string is lowercased and
stored; specifying structured=False for a version whose lowercase form does
not contain mfusg trips the assert on mf.py line 116, modelled as an error.
On success the instance starts with empty external lists, the external unit
counter at 1000, and a freshly built mfnam_packages table. -/
def Modflow.init (modelname : String) (version : String)
    (structured : Bool) (listunit : Nat) (model_ws : String) :
    Except String Modflow.Model :=
  if !structured && !(strContains (strLower version) "mfusg") then
    .error "structured=False can only be specified for mfusg models"
  else
    .ok { name := modelname
          version := strLower version
          structured := structured
          heading := "# Name file for " ++ version ++ ", generated by Flopy."
          model_ws := model_ws
          glo := { name := "GLOBAL", unit := 1, fname := modelname ++ ".glo" }
          lst := { name := "LIST", unit := listunit,
                   fname := modelname ++ ".list" }
          nameFileEntries := []
          external_fnames := []
          external_units := []
          external_binflag := []
          nextExtUnit := 1000
          mfnam_packages := Modflow.default_mfnam_packages
          dis := none
          pop_key_list := [] }

/-- Modflow.next_ext_unit (mf.py 185-191): increment the private counter and
return it, together with the updated instance. -/
def Modflow.next_ext_unit (m : Modflow.Model) : Nat × Modflow.Model :=
  let v := m.nextExtUnit + 1
  (v, { m with nextExtUnit := v })

/-- The values returned by n consecutive next_ext_unit calls on instance m,
in call order. -/
def Modflow.extUnitRets (m : Modflow.Model) : Nat → List Nat
  | 0 => []
  | n + 1 =>
    let r := Modflow.next_ext_unit m
    r.1 :: Modflow.extUnitRets r.2 n

/-- Modflow.nlay property (mf.py 193-198): delegate to the dis package when
present, else 0. -/
def Modflow.nlay (m : Modflow.Model) : Nat :=
  match m.dis with
  | some d => d.nlay
  | none => 0

/-- Modflow.nrow property (mf.py 200-205). -/
def Modflow.nrow (m : Modflow.Model) : Nat :=
  match m.dis with
  | some d => d.nrow
  | none => 0

/-- Modflow.ncol property (mf.py 207-212). -/
def Modflow.ncol (m : Modflow.Model) : Nat :=
  match m.dis with
  | some d => d.ncol
  | none => 0

/-- Modflow.nper property (mf.py 214-219). -/
def Modflow.nper (m : Modflow.Model) : Nat :=
  match m.dis with
  | some d => d.nper
  | none => 0

/-- Modflow.get_nrow_ncol_nlay_nper (mf.py 222-227): the tuple
(nrow, ncol, nlay, nper) from the dis package, or all zeros. -/
def Modflow.get_nrow_ncol_nlay_nper (m : Modflow.Model) :
    Nat × Nat × Nat × Nat :=
  match m.dis with
  | some d => (d.nrow, d.ncol, d.nlay, d.nper)
  | none => (0, 0, 0, 0)

/-- Registry extension on one instance of a collection of live models:
append a (tag, constructor) pair to the mfnam_packages table of instance i,
leaving every other instance alone (Python dict mutation on one object). -/
def Modflow.extendRegistry (w : List Modflow.Model) (i : Nat)
    (tag : String) (p : MfPkgCtor) : List Modflow.Model :=
  match w[i]? with
  | some m =>
    w.set i { m with mfnam_packages := m.mfnam_packages ++ [(tag, p)] }
  | none => w

/-- Left-justified field of the Python format spec 12s (no truncation). -/
def padRight (s : String) (w : Nat) : String :=
  s ++ String.mk (List.replicate (w - s.length) ' ')

/-- Right-justified field of the Python format spec 3d (no truncation). -/
def padLeft (s : String) (w : Nat) : String :=
  String.mk (List.replicate (w - s.length) ' ') ++ s

/-- One package line of the name file, Python format 12s blank 3d blank
filename (mf.py lines 261-262). -/
def fmtPkgLine (p : PkgRef) : String :=
  padRight p.name 12 ++ " " ++ padLeft (toString p.unit) 3 ++ " " ++ p.fname

/-- One external-entry line of the name file (mf.py lines 264-271): entries
with unit 0 produce no line; a binary entry gets the DATA(BINARY) form with a
trailing REPLACE, a text entry the DATA form; the filename is relativized to
the workspace (os.path.relpath stays abstract as the relpath argument). -/
def dataLine (relpath : String → String → String) (ws : String) :
    Nat × String × Bool → Option String
  | (u, f, b) =>
    if u == 0 then none
    else if b then
      some ("DATA(BINARY)  " ++ padLeft (toString u) 3 ++ "  " ++
            relpath f ws ++ " REPLACE")
    else
      some ("DATA          " ++ padLeft (toString u) 3 ++ "  " ++ relpath f ws)

/-- Modflow.write_name_file (mf.py 253-273) as the list of lines written:
heading, the GLOBAL line only for version mf2k, the LIST line, the owned
package file entries, then the external-entry lines in list order. -/
def Modflow.write_name_file (m : Modflow.Model)
    (relpath : String → String → String) : List String :=
  [m.heading]
  ++ (if m.version = "mf2k" then [fmtPkgLine m.glo] else [])
  ++ [fmtPkgLine m.lst]
  ++ m.nameFileEntries
  ++ ((m.external_units.zip (m.external_fnames.zip m.external_binflag)
        ).filterMap (dataLine relpath m.model_ws))

/-- The external-entry line of a nonzero-unit entry, as the spec describes
it: DATA(BINARY) with trailing REPLACE when the binary flag is set, DATA
otherwise, with the filename relativized to the workspace. -/
def specDataLine (relpath : String → String → String) (ws : String)
    (t : Nat × String × Bool) : String :=
  if t.2.2 then
    "DATA(BINARY)  " ++ padLeft (toString t.1) 3 ++ "  " ++
      relpath t.2.1 ws ++ " REPLACE"
  else
    "DATA          " ++ padLeft (toString t.1) 3 ++ "  " ++ relpath t.2.1 ws

/-- Name-file writer as the spec words it, amended at unit 0: heading line,
global line only for mf2k, listing line, one line per owned package file
entry, then one DATA or DATA(BINARY) line per external entry whose unit is
nonzero, relativized filenames. -/
def Modflow.writeNameFileSpec (m : Modflow.Model)
    (relpath : String → String → String) : List String :=
  [m.heading]
  ++ (if m.version = "mf2k" then [fmtPkgLine m.glo] else [])
  ++ [fmtPkgLine m.lst]
  ++ m.nameFileEntries
  ++ (((m.external_units.zip (m.external_fnames.zip m.external_binflag)
        ).filter (fun t => t.1 != 0)).map (specDataLine relpath m.model_ws))

/-- One line of the parsed name file as Modflow.load consumes it: the
ext_unit_dict built by mfreadnam.parsenamefile (outside this module) maps a
unit number to the filetype string, the filename, and whether the filetype
was resolved against mfnam_packages (item.package is not None). -/
structure NamEntry where
  filetype : String
  filename : String
  recognized : Bool
deriving DecidableEq, Repr

/-- The fatal exception classes Modflow.load can raise past the name-file
parse: noDis models the AttributeError raised when no entry has filetype dis
(mf.py 387-405, dis stays None); disLoadFailed the explicit raise at mf.py
402-405; loadOnlyNotFound the explicit raise at mf.py 426-428 carrying the
missing tags. -/
inductive LoadErr where
  | noDis
  | disLoadFailed (filename : String)
  | loadOnlyNotFound (tags : List String)
deriving DecidableEq, Repr

/-- Observable loader invocations during Modflow.load: the dis load at mf.py
395, a package load at mf.py 441, and the parameter resolutions at mf.py
432-434 (set_pval, set_zone, set_mult live outside this module). -/
inductive LoadEvent where
  | disLoad (key : Nat)
  | pkgLoad (key : Nat) (filetype : String)
  | parResolve (tag : String)
deriving DecidableEq, Repr

/-- The mutable state Modflow.load accumulates: the two observability lists
(mf.py 367-368), the external file lists on the model (mf.py 468-471), and
the trace of loader invocations. -/
structure LoadState where
  loaded : List String := []
  notLoaded : List String := []
  external_fnames : List String := []
  external_units : List Nat := []
  external_binflag : List Bool := []
  events : List LoadEvent := []
deriving DecidableEq, Repr

/-- The dis search loop of mf.py 389-393: first table entry whose lowercased
filetype is dis. -/
def findDis (dict : List (Nat × NamEntry)) : Option (Nat × NamEntry) :=
  dict.find? (fun ke => strLower ke.2.filetype == "dis")

/-- ext_unit_dict.pop(key) (mf.py 401): drop the entry at the given unit
(unit numbers are dictionary keys, hence unique). -/
def eraseKey (dict : List (Nat × NamEntry)) (k : Nat) :
    List (Nat × NamEntry) :=
  dict.filter (fun ke => ke.1 != k)

/-- One step of the load_only validation loop of mf.py 415-425: uppercase the
requested tag; a DIS tag is kept as written and not checked; any other tag is
replaced by its uppercase form and recorded as not found when no table entry
carries that filetype. -/
def validateStep (dict2 : List (Nat × NamEntry))
    (acc : List String × List String) (ft : String) :
    List String × List String :=
  let ftU := strUpper ft
  if ftU == "DIS" then (acc.1 ++ [ft], acc.2)
  else
    (acc.1 ++ [ftU],
     if dict2.any (fun ke => ke.2.filetype == ftU) then acc.2
     else acc.2 ++ [ftU])

/-- The load_only handling of mf.py 407-428: when omitted, default to every
filetype present in the remaining table; when supplied, run the validation
loop and raise with the missing tags when any requested non-DIS tag is
absent. -/
def validateLoadOnly (dict2 : List (Nat × NamEntry)) :
    Option (List String) → Except LoadErr (List String)
  | none => .ok (dict2.map (fun ke => ke.2.filetype))
  | some l =>
    let r := l.foldl (validateStep dict2) ([], [])
    if r.2.isEmpty then .ok r.1 else .error (.loadOnlyNotFound r.2)

/-- The effective load_only list the validation loop produces (mf.py 416-418):
tags that uppercase to DIS stay as written, every other tag is uppercased. -/
def effLoadOnly (l : List String) : List String :=
  l.map (fun ft => if strUpper ft == "DIS" then ft else strUpper ft)

/-- The missing tags the validation loop collects (mf.py 419-425): the
uppercased requested tags, other than DIS, that match no table entry. -/
def notFoundTags (dict2 : List (Nat × NamEntry)) (l : List String) :
    List String :=
  (l.map strUpper).filter
    (fun ft => ft != "DIS" && !(dict2.any (fun ke => ke.2.filetype == ft)))

/-- The body of the package loop of mf.py 437-471 for one table entry.
A recognized entry whose filetype is in load_only has its loader invoked
(oracle loadOk); on success the filename goes to the loaded list, on a caught
exception to the not-loaded list.  A recognized entry outside load_only is
skipped into the not-loaded list.  An unrecognized entry without data in its
lowercased filetype is skipped into the not-loaded list.  An unrecognized
data entry is registered as an external file unless its unit is on the pop
list, the binary flag set when the lowercased filetype contains binary. -/
def processEntry (loadOnly : List String) (popKeys : List Nat)
    (loadOk : Nat → NamEntry → Bool) (st : LoadState)
    (ke : Nat × NamEntry) : LoadState :=
  let key := ke.1
  let item := ke.2
  if item.recognized then
    if item.filetype ∈ loadOnly then
      let st1 : LoadState :=
        { st with events := st.events ++ [.pkgLoad key item.filetype] }
      if loadOk key item then
        { st1 with loaded := st1.loaded ++ [item.filename] }
      else
        { st1 with notLoaded := st1.notLoaded ++ [item.filename] }
    else
      { st with notLoaded := st.notLoaded ++ [item.filename] }
  else if !(strContains (strLower item.filetype) "data") then
    { st with notLoaded := st.notLoaded ++ [item.filename] }
  else if key ∈ popKeys then st
  else
    { st with external_fnames := st.external_fnames ++ [item.filename]
              external_units := st.external_units ++ [key]
              external_binflag := st.external_binflag ++
                [strContains (strLower item.filetype) "binary"] }

/-- Modelled from the spec: the parameter pre-resolution step (mf.py 432-434
calls mfpar.set_pval, set_zone, set_mult, which live outside this module).
The spec says these resolve the pval, zone and multiplier entries from the
working table into the parameter context before any further package loads;
here each tag found in the table leaves a parResolve event and the table and
lists stay untouched. -/
def mfparStep (dict2 : List (Nat × NamEntry)) (s : LoadState)
    (tag : String) : LoadState :=
  if dict2.any (fun ke => strLower ke.2.filetype == tag) then
    { s with events := s.events ++ [.parResolve tag] }
  else s

/-- The three parameter resolutions of mf.py 432-434 in source order. -/
def mfparResolve (dict2 : List (Nat × NamEntry)) (st : LoadState) :
    LoadState :=
  ["pval", "zone", "mult"].foldl (mfparStep dict2) st

/-- Modelled from the spec: BaseModel.remove_external (outside this module),
called in the reconciliation loop of mf.py 475-482, drops the external
entries registered under the given unit; a unit with no entry is a silent
no-op (the except branch of mf.py 479-482). -/
def removeExternalUnit (st : LoadState) (key : Nat) : LoadState :=
  let kept := (st.external_units.zip
    (st.external_fnames.zip st.external_binflag)).filter
      (fun t => t.1 != key)
  { st with external_fnames := kept.map (fun t => t.2.1)
            external_units := kept.map (fun t => t.1)
            external_binflag := kept.map (fun t => t.2.2) }

/-- The reconciliation loop of mf.py 475-482 over the pop list. -/
def reconcile (popKeys : List Nat) (st : LoadState) : LoadState :=
  popKeys.foldl removeExternalUnit st

/-- Modflow.load (mf.py 327-501) past the name-file parse, as a function of
the parsed table.  Returns the trace of loader invocations together with
either the fatal error or the final accumulated state.  The individual
package loaders are the oracle loadOk (their success or failure is decided
by code outside this module); popKeys stands for ml.pop_key_list as the
loaders left it.  Steps in source order: find the dis entry (error when
absent); load it and pop its key (fatal on failure); resolve load_only;
run the parameter pre-resolution; fold the package loop over the remaining
table; run the reconciliation loop. -/
def Modflow.load (dict : List (Nat × NamEntry))
    (loadOnly : Option (List String)) (popKeys : List Nat)
    (loadOk : Nat → NamEntry → Bool) :
    List LoadEvent × Except LoadErr LoadState :=
  match findDis dict with
  | none => ([], .error .noDis)
  | some (k, e) =>
    if loadOk k e then
      let dict2 := eraseKey dict k
      match validateLoadOnly dict2 loadOnly with
      | .error err => ([.disLoad k], .error err)
      | .ok eff =>
        let st0 : LoadState :=
          { loaded := [e.filename], events := [.disLoad k] }
        let st1 := mfparResolve dict2 st0
        let st2 := dict2.foldl (processEntry eff popKeys loadOk) st1
        let st3 := reconcile popKeys st2
        (st3.events, .ok st3)
    else ([.disLoad k], .error (.disLoadFailed e.filename))

/-- st2 extends st1 when the loaded, not-loaded and event lists of st1 are
kept as-is and only appended to (Python list.append only grows these). -/
def LoadState.Grows (st1 st2 : LoadState) : Prop :=
  (∃ a, st2.loaded = st1.loaded ++ a)
  ∧ (∃ b, st2.notLoaded = st1.notLoaded ++ b)
  ∧ (∃ c, st2.events = st1.events ++ c)

/-- Example manifest entry: a discretization package line. -/
def entDIS : NamEntry :=
  { filetype := "DIS", filename := "m.dis", recognized := true }

/-- Example manifest entry: a well package line. -/
def entWEL : NamEntry :=
  { filetype := "WEL", filename := "m.wel", recognized := true }

/-- Example manifest entry: a recharge package line. -/
def entRCH : NamEntry :=
  { filetype := "RCH", filename := "m.rch", recognized := true }

/-- Example manifest entry: an unrecognized binary data line. -/
def entHDS : NamEntry :=
  { filetype := "DATA(BINARY)", filename := "m.hds", recognized := false }

/-- Example parsed table with the dis entry second, not first. -/
def egDict : List (Nat × NamEntry) :=
  [(20, entWEL), (10, entDIS), (30, entRCH)]

/-- Example model whose only external entry carries unit number 0. -/
def mZeroUnit : Modflow.Model :=
  { heading := "# h", external_units := [0], external_fnames := ["x.dat"],
    external_binflag := [false] }

theorem extUnitRets_closed (n : Nat) (m : Modflow.Model) :
    Modflow.extUnitRets m n =
      (List.range n).map (fun i => m.nextExtUnit + 1 + i) := by
  induction n generalizing m with
  | zero => rfl
  | succ n ih =>
    rw [Modflow.extUnitRets]
    simp only [Modflow.next_ext_unit, ih, List.range_succ_eq_map,
      List.map_cons, List.map_map]
    congr 1
    apply List.map_congr_left
    intro i _
    simp only [Function.comp_apply]
    omega

theorem grows_refl (st : LoadState) : st.Grows st :=
  ⟨⟨[], by simp⟩, ⟨[], by simp⟩, ⟨[], by simp⟩⟩

theorem grows_trans {s1 s2 s3 : LoadState}
    (h12 : s1.Grows s2) (h23 : s2.Grows s3) : s1.Grows s3 := by
  obtain ⟨⟨a1, ha1⟩, ⟨b1, hb1⟩, ⟨c1, hc1⟩⟩ := h12
  obtain ⟨⟨a2, ha2⟩, ⟨b2, hb2⟩, ⟨c2, hc2⟩⟩ := h23
  exact ⟨⟨a1 ++ a2, by simp [ha2, ha1]⟩, ⟨b1 ++ b2, by simp [hb2, hb1]⟩,
         ⟨c1 ++ c2, by simp [hc2, hc1]⟩⟩

theorem processEntry_grows (lo : List String) (pk : List Nat)
    (ok : Nat → NamEntry → Bool) (st : LoadState) (ke : Nat × NamEntry) :
    st.Grows (processEntry lo pk ok st ke) := by
  unfold processEntry
  dsimp only
  split
  · split
    · split
      · exact ⟨⟨[ke.2.filename], rfl⟩, ⟨[], by simp⟩,
               ⟨[.pkgLoad ke.1 ke.2.filetype], rfl⟩⟩
      · exact ⟨⟨[], by simp⟩, ⟨[ke.2.filename], rfl⟩,
               ⟨[.pkgLoad ke.1 ke.2.filetype], rfl⟩⟩
    · exact ⟨⟨[], by simp⟩, ⟨[ke.2.filename], rfl⟩, ⟨[], by simp⟩⟩
  · split
    · exact ⟨⟨[], by simp⟩, ⟨[ke.2.filename], rfl⟩, ⟨[], by simp⟩⟩
    · split
      · exact grows_refl st
      · exact ⟨⟨[], by simp⟩, ⟨[], by simp⟩, ⟨[], by simp⟩⟩

theorem processEntry_events_cases (lo : List String) (pk : List Nat)
    (ok : Nat → NamEntry → Bool) (st : LoadState) (ke : Nat × NamEntry) :
    (processEntry lo pk ok st ke).events = st.events
    ∨ (processEntry lo pk ok st ke).events =
        st.events ++ [.pkgLoad ke.1 ke.2.filetype] := by
  unfold processEntry
  dsimp only
  split
  · split
    · split
      · exact .inr rfl
      · exact .inr rfl
    · exact .inl rfl
  · split
    · exact .inl rfl
    · split
      · exact .inl rfl
      · exact .inl rfl

theorem processEntry_eligible (lo : List String) (pk : List Nat)
    (ok : Nat → NamEntry → Bool) (st : LoadState) (ke : Nat × NamEntry)
    (hrec : ke.2.recognized = true) (hmem : ke.2.filetype ∈ lo) :
    (processEntry lo pk ok st ke).events =
      st.events ++ [.pkgLoad ke.1 ke.2.filetype]
    ∧ (ok ke.1 ke.2 = false →
        (processEntry lo pk ok st ke).notLoaded =
          st.notLoaded ++ [ke.2.filename]) := by
  unfold processEntry
  dsimp only
  rw [hrec]
  rw [if_pos rfl, if_pos hmem]
  cases hok : ok ke.1 ke.2 with
  | true => exact ⟨rfl, fun hfalse => by simp at hfalse⟩
  | false => exact ⟨rfl, fun _ => rfl⟩

theorem foldl_processEntry_grows (lo : List String) (pk : List Nat)
    (ok : Nat → NamEntry → Bool) (l : List (Nat × NamEntry))
    (st : LoadState) :
    st.Grows (l.foldl (processEntry lo pk ok) st) := by
  induction l generalizing st with
  | nil => exact grows_refl st
  | cons x xs ih =>
    exact grows_trans (processEntry_grows lo pk ok st x)
      (ih (processEntry lo pk ok st x))

theorem foldl_processEntry_event_mem (lo : List String) (pk : List Nat)
    (ok : Nat → NamEntry → Bool) (l : List (Nat × NamEntry))
    (st : LoadState) (ke : Nat × NamEntry)
    (hke : ke ∈ l) (hrec : ke.2.recognized = true)
    (hmem : ke.2.filetype ∈ lo) :
    LoadEvent.pkgLoad ke.1 ke.2.filetype ∈
      (l.foldl (processEntry lo pk ok) st).events := by
  induction l generalizing st with
  | nil => cases hke
  | cons x xs ih =>
    rw [List.foldl_cons]
    rcases List.mem_cons.mp hke with heq | hke2
    · subst heq
      have he := (processEntry_eligible lo pk ok st ke hrec hmem).1
      have hin : LoadEvent.pkgLoad ke.1 ke.2.filetype ∈
          (processEntry lo pk ok st ke).events := by
        rw [he]; simp
      obtain ⟨-, -, ⟨c, hc⟩⟩ :=
        foldl_processEntry_grows lo pk ok xs (processEntry lo pk ok st ke)
      rw [hc]
      exact List.mem_append_left c hin
    · exact ih (processEntry lo pk ok st x) hke2

theorem foldl_processEntry_events_from (lo : List String) (pk : List Nat)
    (ok : Nat → NamEntry → Bool) (l : List (Nat × NamEntry))
    (st : LoadState) (ev : LoadEvent)
    (h : ev ∈ (l.foldl (processEntry lo pk ok) st).events) :
    ev ∈ st.events ∨ ∃ ke ∈ l, ev = .pkgLoad ke.1 ke.2.filetype := by
  induction l generalizing st with
  | nil => exact .inl h
  | cons x xs ih =>
    rw [List.foldl_cons] at h
    rcases ih (processEntry lo pk ok st x) h with h1 | ⟨ke, hke, hev⟩
    · rcases processEntry_events_cases lo pk ok st x with he | he
      · rw [he] at h1
        exact .inl h1
      · rw [he] at h1
        rcases List.mem_append.mp h1 with h2 | h2
        · exact .inl h2
        · refine .inr ⟨x, List.mem_cons_self x xs, ?_⟩
          simpa using h2
    · exact .inr ⟨ke, List.mem_cons_of_mem x hke, hev⟩

theorem mfparStep_fields (d : List (Nat × NamEntry)) (st : LoadState)
    (tag : String) :
    (mfparStep d st tag).loaded = st.loaded
    ∧ (mfparStep d st tag).notLoaded = st.notLoaded
    ∧ ((mfparStep d st tag).events = st.events
       ∨ (mfparStep d st tag).events = st.events ++ [.parResolve tag]) := by
  unfold mfparStep
  split
  · exact ⟨rfl, rfl, .inr rfl⟩
  · exact ⟨rfl, rfl, .inl rfl⟩

theorem mfparFold_props (d : List (Nat × NamEntry)) (tags : List String)
    (st : LoadState) :
    (tags.foldl (mfparStep d) st).loaded = st.loaded
    ∧ (tags.foldl (mfparStep d) st).notLoaded = st.notLoaded
    ∧ ∃ c, (tags.foldl (mfparStep d) st).events = st.events ++ c
        ∧ ∀ ev ∈ c, ∃ t, ev = LoadEvent.parResolve t := by
  induction tags generalizing st with
  | nil => exact ⟨rfl, rfl, ⟨[], by simp, by simp⟩⟩
  | cons tag tags ih =>
    rw [List.foldl_cons]
    obtain ⟨hl, hn, ⟨c, hc, hcall⟩⟩ := ih (mfparStep d st tag)
    obtain ⟨hl0, hn0, hev0⟩ := mfparStep_fields d st tag
    refine ⟨hl.trans hl0, hn.trans hn0, ?_⟩
    rcases hev0 with he | he
    · exact ⟨c, by rw [hc, he], hcall⟩
    · refine ⟨.parResolve tag :: c, by rw [hc, he]; simp, ?_⟩
      intro ev hev
      rcases List.mem_cons.mp hev with rfl | hev2
      · exact ⟨tag, rfl⟩
      · exact hcall ev hev2

theorem mfparResolve_props (d : List (Nat × NamEntry)) (st : LoadState) :
    (mfparResolve d st).loaded = st.loaded
    ∧ (mfparResolve d st).notLoaded = st.notLoaded
    ∧ ∃ c, (mfparResolve d st).events = st.events ++ c
        ∧ ∀ ev ∈ c, ∃ t, ev = LoadEvent.parResolve t :=
  mfparFold_props d ["pval", "zone", "mult"] st

theorem reconcile_keeps (pk : List Nat) (st : LoadState) :
    (reconcile pk st).loaded = st.loaded
    ∧ (reconcile pk st).notLoaded = st.notLoaded
    ∧ (reconcile pk st).events = st.events := by
  induction pk generalizing st with
  | nil => exact ⟨rfl, rfl, rfl⟩
  | cons k ks ih =>
    have h := ih (removeExternalUnit st k)
    simpa [reconcile, List.foldl_cons, removeExternalUnit] using h

theorem eraseKey_mem_ne (dict : List (Nat × NamEntry)) (k : Nat)
    (ke : Nat × NamEntry) (h : ke ∈ eraseKey dict k) : ke.1 ≠ k := by
  have h2 := (List.mem_filter.mp h).2
  simpa using h2

theorem validateStep_eq (dict2 : List (Nat × NamEntry)) (p q : List String)
    (ft : String) :
    validateStep dict2 (p, q) ft =
      (p ++ [if strUpper ft == "DIS" then ft else strUpper ft],
       if strUpper ft == "DIS" then q
       else if dict2.any (fun ke => ke.2.filetype == strUpper ft) then q
       else q ++ [strUpper ft]) := by
  unfold validateStep
  dsimp only
  by_cases hd : strUpper ft == "DIS"
  · simp [hd]
  · by_cases hf : dict2.any (fun ke => ke.2.filetype == strUpper ft) <;>
      simp [hd, hf]

theorem validate_foldl (dict2 : List (Nat × NamEntry)) (l : List String)
    (p q : List String) :
    l.foldl (validateStep dict2) (p, q) =
      (p ++ effLoadOnly l, q ++ notFoundTags dict2 l) := by
  induction l generalizing p q with
  | nil => simp [effLoadOnly, notFoundTags]
  | cons ft l ih =>
    rw [List.foldl_cons, validateStep_eq, ih]
    by_cases hd : strUpper ft = "DIS"
    · simp [hd, effLoadOnly, notFoundTags, List.filter_cons,
        List.append_assoc]
    · by_cases hf : dict2.any (fun ke => ke.2.filetype == strUpper ft)
      · simp [hd, hf, effLoadOnly, notFoundTags, List.filter_cons,
          List.append_assoc, bne_iff_ne]
      · simp [hd, hf, effLoadOnly, notFoundTags, List.filter_cons,
          List.append_assoc, bne_iff_ne]

theorem filterMap_dataLine (rel : String → String → String) (ws : String)
    (l : List (Nat × String × Bool)) :
    l.filterMap (dataLine rel ws) =
      (l.filter (fun t => t.1 != 0)).map (specDataLine rel ws) := by
  induction l with
  | nil => rfl
  | cons t l ih =>
    rcases t with ⟨u, f, b⟩
    by_cases h : u = 0
    · subst h
      simp [List.filterMap_cons, List.filter_cons, dataLine, ih]
    · cases b with
      | true =>
        simp [List.filterMap_cons, List.filter_cons, dataLine, specDataLine,
          h, ih]
      | false =>
        simp [List.filterMap_cons, List.filter_cons, dataLine, specDataLine,
          h, ih]

/-- C1: for every parsed manifest table containing zero entries whose
filetype tag is the discretization tag, Modflow.load raises an exception
(the noDis error, the AttributeError path of mf.py 387-405) and never
returns a Model object. -/
theorem load_fails_without_dis (dict : List (Nat × NamEntry))
    (loadOnly : Option (List String)) (popKeys : List Nat)
    (loadOk : Nat → NamEntry → Bool)
    (h : ∀ ke ∈ dict, strLower ke.2.filetype ≠ "dis") :
    (Modflow.load dict loadOnly popKeys loadOk).2 = .error .noDis := by
  have hf : findDis dict = none := by
    unfold findDis
    apply List.find?_eq_none.mpr
    intro ke hke
    simpa using h ke hke
  simp [Modflow.load, hf]

theorem load_fails_without_dis_witness :
    (∀ ke ∈ [(5, entWEL)], strLower ke.2.filetype ≠ "dis")
    ∧ (Modflow.load [(5, entWEL)] none [] (fun _ _ => true)).2 =
        .error .noDis :=
  ⟨by decide,
   load_fails_without_dis [(5, entWEL)] none [] (fun _ _ => true) (by decide)⟩

/-- C5: for every Model instance whose external-unit counter is at or past
its construction value 1000, and for every split of a run of next_ext_unit
calls into k earlier and n later calls, the whole run of k + n returned
integers is strictly increasing (hence the n consecutive values are strictly
increasing, distinct from each other and from every earlier return), and no
return is 1000 or below. -/
theorem next_ext_unit_monotonic (m : Modflow.Model) (k n : Nat)
    (h : 1000 ≤ m.nextExtUnit) :
    (Modflow.extUnitRets m (k + n)).length = k + n
    ∧ (Modflow.extUnitRets m (k + n)).Pairwise (· < ·)
    ∧ (∀ x ∈ Modflow.extUnitRets m (k + n), 1000 < x)
    ∧ (Modflow.extUnitRets m (k + n)).Nodup := by
  rw [extUnitRets_closed]
  have hpw : ((List.range (k + n)).map
      (fun i => m.nextExtUnit + 1 + i)).Pairwise (· < ·) := by
    rw [List.pairwise_map]
    exact (List.pairwise_lt_range (k + n)).imp (fun hab => by omega)
  refine ⟨by simp, hpw, ?_, hpw.imp (fun hab => Nat.ne_of_lt hab)⟩
  intro x hx
  rcases List.mem_map.mp hx with ⟨i, _, rfl⟩
  omega

theorem next_ext_unit_monotonic_witness :
    1000 ≤ ({} : Modflow.Model).nextExtUnit
    ∧ ((Modflow.extUnitRets {} (2 + 3)).length = 2 + 3
       ∧ (Modflow.extUnitRets {} (2 + 3)).Pairwise (· < ·)
       ∧ (∀ x ∈ Modflow.extUnitRets {} (2 + 3), 1000 < x)
       ∧ (Modflow.extUnitRets {} (2 + 3)).Nodup) :=
  ⟨by decide, next_ext_unit_monotonic {} 2 3 (by decide)⟩

/-- C8: with no discretization package on the model, the accessors nlay,
nrow, ncol, nper return 0 and get_nrow_ncol_nlay_nper returns (0, 0, 0, 0)
rather than raising; with a discretization package present, each accessor
returns exactly the corresponding value delegated from it. -/
theorem grid_shape_delegates (m : Modflow.Model) :
    (m.dis = none →
      Modflow.nlay m = 0 ∧ Modflow.nrow m = 0 ∧ Modflow.ncol m = 0 ∧
      Modflow.nper m = 0 ∧ Modflow.get_nrow_ncol_nlay_nper m = (0, 0, 0, 0))
    ∧ (∀ d, m.dis = some d →
      Modflow.nlay m = d.nlay ∧ Modflow.nrow m = d.nrow ∧
      Modflow.ncol m = d.ncol ∧ Modflow.nper m = d.nper ∧
      Modflow.get_nrow_ncol_nlay_nper m = (d.nrow, d.ncol, d.nlay, d.nper)) := by
  constructor
  · intro h
    simp [Modflow.nlay, Modflow.nrow, Modflow.ncol, Modflow.nper,
      Modflow.get_nrow_ncol_nlay_nper, h]
  · intro d h
    simp [Modflow.nlay, Modflow.nrow, Modflow.ncol, Modflow.nper,
      Modflow.get_nrow_ncol_nlay_nper, h]

theorem grid_shape_delegates_witness :
    (Modflow.nlay {} = 0 ∧ Modflow.nrow {} = 0 ∧ Modflow.ncol {} = 0 ∧
      Modflow.nper {} = 0 ∧
      Modflow.get_nrow_ncol_nlay_nper {} = (0, 0, 0, 0))
    ∧ (Modflow.nlay { dis := some ⟨3, 4, 5, 6⟩ } = 3
       ∧ Modflow.nrow { dis := some ⟨3, 4, 5, 6⟩ } = 4
       ∧ Modflow.ncol { dis := some ⟨3, 4, 5, 6⟩ } = 5
       ∧ Modflow.nper { dis := some ⟨3, 4, 5, 6⟩ } = 6
       ∧ Modflow.get_nrow_ncol_nlay_nper { dis := some ⟨3, 4, 5, 6⟩ } =
           (4, 5, 3, 6)) :=
  ⟨(grid_shape_delegates {}).1 rfl,
   (grid_shape_delegates { dis := some ⟨3, 4, 5, 6⟩ }).2 ⟨3, 4, 5, 6⟩ rfl⟩

/-- C7 counterexample: a model with exactly one external entry, carried
under unit number 0, produces a name file with no DATA line at all, so the
claim that every external entry yields a DATA or DATA(BINARY) line fails at
this input (mf.py 265-266 skips unit 0). -/
theorem write_name_file_drops_unit0 :
    mZeroUnit.external_units.length = 1
    ∧ Modflow.write_name_file mZeroUnit (fun f _ => f) =
        [mZeroUnit.heading, fmtPkgLine mZeroUnit.lst]
    ∧ ∀ line ∈ Modflow.write_name_file mZeroUnit (fun f _ => f),
        strContains line "DATA" = false := by
  refine ⟨rfl, rfl, ?_⟩
  decide

/-- C7 amended: write_name_file emits, in order, the heading comment line, a
global-package line only when the version is mf2k, the listing-package line,
one line per owned package file entry, then one DATA or DATA(BINARY) line for
every external entry whose unit number is nonzero (entries with unit 0 are
skipped), each external filename written relative to the model workspace. -/
theorem write_name_file_layout (m : Modflow.Model)
    (relpath : String → String → String) :
    Modflow.write_name_file m relpath = Modflow.writeNameFileSpec m relpath := by
  unfold Modflow.write_name_file Modflow.writeNameFileSpec
  rw [filterMap_dataLine]

/-- C10 counterexample: the version string MFUSG does not contain the
substring mfusg, yet constructing with structured=False and version MFUSG
succeeds, because the assert on mf.py 116 tests the lowercased stored
version, not the given string. -/
theorem structured_assert_cex :
    strContains "MFUSG" "mfusg" = false
    ∧ (∃ m, Modflow.init "modflowtest" "MFUSG" false 2 "." = .ok m) :=
  ⟨rfl, ⟨_, rfl⟩⟩

/-- C10 amended: construction succeeds exactly when structured is true or
the lowercased version string contains mfusg; so structured=False trips the
assertion precisely for versions whose lowercase form lacks mfusg, and any
version containing mfusg (in any letter case) is accepted. -/
theorem structured_assert_amended (modelname version : String)
    (structured : Bool) (listunit : Nat) (ws : String) :
    (∃ m, Modflow.init modelname version structured listunit ws = .ok m)
    ↔ (structured = true ∨ strContains (strLower version) "mfusg" = true) := by
  unfold Modflow.init
  cases structured with
  | true => simp
  | false =>
    cases hc : strContains (strLower version) "mfusg" with
    | true => simp [hc]
    | false => simp [hc]

/-- C9: each Modflow instance owns its own filetype-to-constructor registry,
freshly constructed at model construction (the mfnam_packages table of any
instance init returns equals the default table), and extending the registry
of instance i in a collection of live models leaves every other instance of
the collection unchanged. -/
theorem registry_per_instance (w : List Modflow.Model) (i j : Nat)
    (tag : String) (p : MfPkgCtor) (modelname version : String) (s : Bool)
    (listunit : Nat) (ws : String) (mi : Modflow.Model)
    (hne : j ≠ i)
    (hinit : Modflow.init modelname version s listunit ws = .ok mi) :
    (Modflow.extendRegistry w i tag p)[j]? = w[j]?
    ∧ mi.mfnam_packages = Modflow.default_mfnam_packages := by
  constructor
  · unfold Modflow.extendRegistry
    cases h : w[i]? with
    | none => rfl
    | some m => exact List.getElem?_set_ne (fun hij => hne hij.symm)
  · unfold Modflow.init at hinit
    split at hinit
    · cases hinit
    · cases hinit
      rfl

theorem registry_per_instance_witness :
    (Modflow.extendRegistry [{ name := "a" }, { name := "b" }] 0 "abc"
        (.ext "abc"))[1]? = [{ name := "a" }, { name := "b" }][1]?
    ∧ ({ name := "t", version := "mf2005", structured := true,
         heading := "# Name file for mf2005, generated by Flopy.",
         model_ws := ".", glo := ⟨"GLOBAL", 1, "t.glo"⟩,
         lst := ⟨"LIST", 2, "t.list"⟩,
         mfnam_packages := Modflow.default_mfnam_packages } :
           Modflow.Model).mfnam_packages = Modflow.default_mfnam_packages :=
  registry_per_instance [{ name := "a" }, { name := "b" }] 0 1 "abc"
    (.ext "abc") "t" "mf2005" true 2 "." _ (by decide) rfl

/-- C6: a working-table entry whose filetype is not recognized by the
registry and whose tag contains data case-insensitively registers exactly
one external-file record (filename, unit, binary flag) on the model, unless
its unit is on the pop list in which case nothing changes; the entry is
never added to the not-loaded (or loaded) list; the binary flag is true
exactly when the tag contains binary case-insensitively (mf.py 462-471). -/
theorem data_entry_registered (lo : List String) (popKeys : List Nat)
    (loadOk : Nat → NamEntry → Bool) (st : LoadState) (k : Nat)
    (e : NamEntry)
    (hrec : e.recognized = false)
    (hdata : strContains (strLower e.filetype) "data" = true) :
    (k ∉ popKeys →
      processEntry lo popKeys loadOk st (k, e) =
        { st with
          external_fnames := st.external_fnames ++ [e.filename]
          external_units := st.external_units ++ [k]
          external_binflag := st.external_binflag ++
            [strContains (strLower e.filetype) "binary"] })
    ∧ (k ∈ popKeys → processEntry lo popKeys loadOk st (k, e) = st)
    ∧ (processEntry lo popKeys loadOk st (k, e)).notLoaded = st.notLoaded
    ∧ (processEntry lo popKeys loadOk st (k, e)).loaded = st.loaded := by
  unfold processEntry
  dsimp only
  rw [hrec]
  simp only [Bool.false_eq_true, if_false, hdata, Bool.not_true,
    Bool.false_eq_true, if_false]
  by_cases hk : k ∈ popKeys
  · simp [hk]
  · simp [hk]

theorem data_entry_registered_witness :
    entHDS.recognized = false
    ∧ strContains (strLower entHDS.filetype) "data" = true
    ∧ strContains (strLower entHDS.filetype) "binary" = true
    ∧ processEntry [] [] (fun _ _ => true) {} (50, entHDS) =
        { external_fnames := ["m.hds"], external_units := [50],
          external_binflag := [true] }
    ∧ processEntry [] [50] (fun _ _ => true) {} (50, entHDS) = {} := by
  refine ⟨rfl, rfl, rfl, ?_, ?_⟩
  · have h := (data_entry_registered [] [] (fun _ _ => true) {} 50 entHDS
      rfl rfl).1 (by decide)
    exact h.trans (by decide)
  · exact (data_entry_registered [] [50] (fun _ _ => true) {} 50 entHDS
      rfl rfl).2.1 (by decide)

/-- C4: when load_only is omitted it defaults to every filetype present in
the working table left after the discretization entry is removed; when
supplied, validation succeeds (yielding the uppercased request list)
exactly when no requested non-DIS tag is missing from that table, and
otherwise Modflow.load fails fatally with an error naming exactly the
missing tags, each of which really matches no remaining entry. -/
theorem load_only_validated (dict dict2 : List (Nat × NamEntry))
    (l : List String) (k : Nat) (e : NamEntry) (popKeys : List Nat)
    (loadOk : Nat → NamEntry → Bool) :
    (validateLoadOnly dict2 none = .ok (dict2.map (fun ke => ke.2.filetype)))
    ∧ (notFoundTags dict2 l = [] →
        validateLoadOnly dict2 (some l) = .ok (effLoadOnly l))
    ∧ (notFoundTags dict2 l ≠ [] →
        validateLoadOnly dict2 (some l) =
          .error (.loadOnlyNotFound (notFoundTags dict2 l)))
    ∧ (∀ t ∈ notFoundTags dict2 l,
        t ≠ "DIS" ∧ ∀ ke ∈ dict2, ke.2.filetype ≠ t)
    ∧ (∀ t ∈ l, strUpper t ≠ "DIS" →
        (∀ ke ∈ dict2, ke.2.filetype ≠ strUpper t) →
        strUpper t ∈ notFoundTags dict2 l)
    ∧ (findDis dict = some (k, e) → loadOk k e = true →
        notFoundTags (eraseKey dict k) l ≠ [] →
        (Modflow.load dict (some l) popKeys loadOk).2 =
          .error (.loadOnlyNotFound (notFoundTags (eraseKey dict k) l))) := by
  have hval : ∀ d2 : List (Nat × NamEntry),
      validateLoadOnly d2 (some l) =
        if (notFoundTags d2 l).isEmpty then .ok (effLoadOnly l)
        else .error (.loadOnlyNotFound (notFoundTags d2 l)) := by
    intro d2
    unfold validateLoadOnly
    dsimp only
    rw [validate_foldl]
    simp
  refine ⟨rfl, ?_, ?_, ?_, ?_, ?_⟩
  · intro h
    rw [hval dict2, h]
    rfl
  · intro h
    rw [hval dict2, List.isEmpty_eq_false.mpr h]
    rfl
  · intro t ht
    unfold notFoundTags at ht
    have h1 := List.mem_filter.mp ht
    have h2 := h1.2
    simp only [Bool.and_eq_true, bne_iff_ne, ne_eq, Bool.not_eq_true] at h2
    refine ⟨h2.1, ?_⟩
    intro ke hke heq
    have h3 : dict2.any (fun ke => ke.2.filetype == t) = true :=
      List.any_eq_true.mpr ⟨ke, hke, by simp [heq]⟩
    simp [h3] at h2
  · intro t ht hne hnone
    unfold notFoundTags
    apply List.mem_filter.mpr
    refine ⟨List.mem_map.mpr ⟨t, ht, rfl⟩, ?_⟩
    have hany : dict2.any (fun ke => ke.2.filetype == strUpper t) = false := by
      apply Bool.eq_false_iff.mpr
      intro hany
      rcases List.any_eq_true.mp hany with ⟨ke, hke, hbe⟩
      exact hnone ke hke (by simpa using hbe)
    simp [hany, bne_iff_ne, hne]
  · intro hdis hok hnf
    simp only [Modflow.load, hdis, hok, if_true]
    rw [hval (eraseKey dict k), List.isEmpty_eq_false.mpr hnf]
    simp

theorem load_only_validated_witness :
    (validateLoadOnly [(30, entRCH)] none = .ok ["RCH"])
    ∧ (notFoundTags [(30, entRCH)] ["rch", "wel"] ≠ [])
    ∧ (validateLoadOnly [(30, entRCH)] (some ["rch", "wel"]) =
        .error (.loadOnlyNotFound ["WEL"]))
    ∧ ((Modflow.load egDict (some ["sfr"]) [] (fun _ _ => true)).2 =
        .error (.loadOnlyNotFound ["SFR"])) := by
  refine ⟨?_, by decide, ?_, ?_⟩
  · exact (load_only_validated [] [(30, entRCH)] [] 0 entDIS []
      (fun _ _ => true)).1
  · have h := (load_only_validated [] [(30, entRCH)] ["rch", "wel"] 0 entDIS
      [] (fun _ _ => true)).2.2.1 (by decide)
    have e1 : notFoundTags [(30, entRCH)] ["rch", "wel"] = ["WEL"] := by
      decide
    rw [e1] at h
    exact h
  · have h := (load_only_validated egDict [] ["sfr"] 10 entDIS []
      (fun _ _ => true)).2.2.2.2.2 rfl rfl (by decide)
    have e2 : notFoundTags (eraseKey egDict 10) ["sfr"] = ["SFR"] := by
      decide
    rw [e2] at h
    exact h

theorem reconcile_loaded (pk : List Nat) (st : LoadState) :
    (reconcile pk st).loaded = st.loaded := (reconcile_keeps pk st).1

theorem reconcile_notLoaded (pk : List Nat) (st : LoadState) :
    (reconcile pk st).notLoaded = st.notLoaded := (reconcile_keeps pk st).2.1

theorem reconcile_events (pk : List Nat) (st : LoadState) :
    (reconcile pk st).events = st.events := (reconcile_keeps pk st).2.2

theorem foldl_processEntry_notLoaded_mem (lo : List String) (pk : List Nat)
    (ok : Nat → NamEntry → Bool) (l : List (Nat × NamEntry))
    (st : LoadState) (ke : Nat × NamEntry)
    (hke : ke ∈ l) (hrec : ke.2.recognized = true)
    (hmem : ke.2.filetype ∈ lo) (hfail : ok ke.1 ke.2 = false) :
    ke.2.filename ∈ (l.foldl (processEntry lo pk ok) st).notLoaded := by
  induction l generalizing st with
  | nil => cases hke
  | cons x xs ih =>
    rw [List.foldl_cons]
    rcases List.mem_cons.mp hke with heq | hke2
    · subst heq
      have hstep := (processEntry_eligible lo pk ok st ke hrec hmem).2 hfail
      have hin : ke.2.filename ∈ (processEntry lo pk ok st ke).notLoaded := by
        rw [hstep]; simp
      obtain ⟨-, ⟨b, hb⟩, -⟩ :=
        foldl_processEntry_grows lo pk ok xs (processEntry lo pk ok st ke)
      rw [hb]
      exact List.mem_append_left b hin
    · exact ih (processEntry lo pk ok st x) hke2

theorem load_ok_unfold (dict : List (Nat × NamEntry))
    (loadOnly : Option (List String)) (popKeys : List Nat)
    (loadOk : Nat → NamEntry → Bool) (k : Nat) (e : NamEntry)
    (eff : List String)
    (hdis : findDis dict = some (k, e)) (hok : loadOk k e = true)
    (hv : validateLoadOnly (eraseKey dict k) loadOnly = .ok eff) :
    Modflow.load dict loadOnly popKeys loadOk =
      ((reconcile popKeys (List.foldl (processEntry eff popKeys loadOk)
          (mfparResolve (eraseKey dict k)
            ⟨[e.filename], [], [], [], [], [.disLoad k]⟩)
          (eraseKey dict k))).events,
       .ok (reconcile popKeys (List.foldl (processEntry eff popKeys loadOk)
          (mfparResolve (eraseKey dict k)
            ⟨[e.filename], [], [], [], [], [.disLoad k]⟩)
          (eraseKey dict k)))) := by
  simp only [Modflow.load, hdis, hok, hv]
  simp

theorem load_disfail_unfold (dict : List (Nat × NamEntry))
    (loadOnly : Option (List String)) (popKeys : List Nat)
    (loadOk : Nat → NamEntry → Bool) (k : Nat) (e : NamEntry)
    (hdis : findDis dict = some (k, e)) (hok : loadOk k e = false) :
    Modflow.load dict loadOnly popKeys loadOk =
      ([.disLoad k], .error (.disLoadFailed e.filename)) := by
  simp only [Modflow.load, hdis, hok]
  simp

theorem load_valfail_unfold (dict : List (Nat × NamEntry))
    (loadOnly : Option (List String)) (popKeys : List Nat)
    (loadOk : Nat → NamEntry → Bool) (k : Nat) (e : NamEntry)
    (err : LoadErr)
    (hdis : findDis dict = some (k, e)) (hok : loadOk k e = true)
    (hv : validateLoadOnly (eraseKey dict k) loadOnly = .error err) :
    Modflow.load dict loadOnly popKeys loadOk =
      ([.disLoad k], .error err) := by
  simp only [Modflow.load, hdis, hok, hv]
  simp

/-- C2: for every parsed table containing a discretization entry, wherever
it sits in the table, that entry is the first loader invocation of
Modflow.load (head of the event trace); its key is removed from the working
table before the package loop, so no later package-loop invocation touches
that key; and if the dis load fails the whole call fails fatally with the
dis error after that single invocation. -/
theorem dis_loaded_first (dict : List (Nat × NamEntry))
    (loadOnly : Option (List String)) (popKeys : List Nat)
    (loadOk : Nat → NamEntry → Bool) (k : Nat) (e : NamEntry)
    (hdis : findDis dict = some (k, e)) :
    (Modflow.load dict loadOnly popKeys loadOk).1.head? =
      some (.disLoad k)
    ∧ (∀ key ft,
        LoadEvent.pkgLoad key ft ∈
          (Modflow.load dict loadOnly popKeys loadOk).1 →
        key ≠ k)
    ∧ (loadOk k e = false →
        (Modflow.load dict loadOnly popKeys loadOk).2 =
          .error (.disLoadFailed e.filename)
        ∧ (Modflow.load dict loadOnly popKeys loadOk).1 = [.disLoad k]) := by
  cases hok : loadOk k e with
  | false =>
    rw [load_disfail_unfold dict loadOnly popKeys loadOk k e hdis hok]
    refine ⟨rfl, ?_, fun _ => ⟨rfl, rfl⟩⟩
    intro key ft hmem
    simp at hmem
  | true =>
    cases hv : validateLoadOnly (eraseKey dict k) loadOnly with
    | error err =>
      rw [load_valfail_unfold dict loadOnly popKeys loadOk k e err hdis hok hv]
      refine ⟨rfl, ?_, fun hfalse => absurd hfalse (by simp)⟩
      intro key ft hmem
      simp at hmem
    | ok eff =>
      rw [load_ok_unfold dict loadOnly popKeys loadOk k e eff hdis hok hv]
      obtain ⟨hl1, hn1, ⟨c1, hc1, hc1all⟩⟩ :=
        mfparResolve_props (eraseKey dict k)
          ⟨[e.filename], [], [], [], [], [.disLoad k]⟩
      obtain ⟨-, -, ⟨c2, hc2⟩⟩ :=
        foldl_processEntry_grows eff popKeys loadOk (eraseKey dict k)
          (mfparResolve (eraseKey dict k)
            ⟨[e.filename], [], [], [], [], [.disLoad k]⟩)
      refine ⟨?_, ?_, fun hfalse => absurd hfalse (by simp)⟩
      · rw [reconcile_events, hc2, hc1]
        simp
      · intro key ft hmem
        rw [reconcile_events] at hmem
        rcases foldl_processEntry_events_from eff popKeys loadOk
            (eraseKey dict k) _ _ hmem with h1 | ⟨ke, hke, hev⟩
        · rw [hc1] at h1
          rcases List.mem_append.mp h1 with h2 | h2
          · simp at h2
          · rcases hc1all _ h2 with ⟨t, ht⟩
            cases ht
        · injection hev with hkey hft
          subst hkey
          exact eraseKey_mem_ne dict k ke hke

theorem dis_loaded_first_witness :
    (Modflow.load egDict none [] (fun _ _ => false)).1.head? =
      some (.disLoad 10)
    ∧ (∀ key ft,
        LoadEvent.pkgLoad key ft ∈
          (Modflow.load egDict none [] (fun _ _ => false)).1 →
        key ≠ 10)
    ∧ ((fun _ _ => false) 10 entDIS = false →
        (Modflow.load egDict none [] (fun _ _ => false)).2 =
          .error (.disLoadFailed entDIS.filename)
        ∧ (Modflow.load egDict none [] (fun _ _ => false)).1 =
            [.disLoad 10]) :=
  dis_loaded_first egDict none [] (fun _ _ => false) 10 entDIS rfl

/-- C3: a registry-recognized entry of the post-dis working table whose
filetype is in the effective load_only set and whose loader raises has the
exception caught locally: its filename is appended to the not-loaded list,
every other eligible entry still gets its loader invoked, and Modflow.load
still returns a final state rather than propagating the failure. -/
theorem package_failure_isolated (dict : List (Nat × NamEntry))
    (loadOnly : Option (List String)) (popKeys : List Nat)
    (loadOk : Nat → NamEntry → Bool) (k : Nat) (e : NamEntry)
    (eff : List String) (k2 : Nat) (e2 : NamEntry)
    (hdis : findDis dict = some (k, e))
    (hok : loadOk k e = true)
    (hv : validateLoadOnly (eraseKey dict k) loadOnly = .ok eff)
    (hmem : (k2, e2) ∈ eraseKey dict k)
    (hrec : e2.recognized = true)
    (hallow : e2.filetype ∈ eff)
    (hfail : loadOk k2 e2 = false) :
    ∃ st, (Modflow.load dict loadOnly popKeys loadOk).2 = .ok st
      ∧ e2.filename ∈ st.notLoaded
      ∧ ∀ ke ∈ eraseKey dict k, ke.2.recognized = true →
          ke.2.filetype ∈ eff →
          LoadEvent.pkgLoad ke.1 ke.2.filetype ∈ st.events := by
  rw [load_ok_unfold dict loadOnly popKeys loadOk k e eff hdis hok hv]
  refine ⟨_, rfl, ?_, ?_⟩
  · rw [reconcile_notLoaded]
    exact foldl_processEntry_notLoaded_mem eff popKeys loadOk
      (eraseKey dict k) _ (k2, e2) hmem hrec hallow hfail
  · intro ke hke hr hm
    rw [reconcile_events]
    exact foldl_processEntry_event_mem eff popKeys loadOk
      (eraseKey dict k) _ ke hke hr hm

theorem package_failure_isolated_witness :
    ∃ st, (Modflow.load egDict none [] (fun key _ => key != 20)).2 = .ok st
      ∧ entWEL.filename ∈ st.notLoaded
      ∧ ∀ ke ∈ eraseKey egDict 10, ke.2.recognized = true →
          ke.2.filetype ∈ ["WEL", "RCH"] →
          LoadEvent.pkgLoad ke.1 ke.2.filetype ∈ st.events :=
  package_failure_isolated egDict none [] (fun key _ => key != 20)
    10 entDIS ["WEL", "RCH"] 20 entWEL rfl rfl rfl (by decide) rfl
    (by decide) rfl
